import Mathlib

/-!
Verification of the nearcore epoch-manager / runtime specification against
the repository's code.

The gas counter (`runtime/near-vm-runner/src/logic/gas_counter.rs`) and the
two `TransferStats` implementations (`chain/network/src/peer/rate_counter.rs`
and `chain/network/src/peer/transfer_stats.rs`) are embedded directly from
the source.  The epoch-manager policy engines (validator selection, kickout
and reward computation, epoch-info aggregator) are present in the repository
only through their tests (`chain/epoch-manager/src/tests/mod.rs`), so they
are modelled from the specification and checked against the concrete
expectations recorded in those tests.

Machine integers are embedded as `Nat` with explicit `% 2^64` where the
source uses wrapping arithmetic; checked arithmetic returns `Option`.
-/

namespace GasLogic

/-- Size of the u64 domain; `Gas` in the source is a `u64`. -/
def U64SIZE : Nat := 2 ^ 64

/-- u64 `checked_add`: `some (a + b)` unless the sum overflows. -/
def checkedAdd (a b : Nat) : Option Nat :=
  if a + b < U64SIZE then some (a + b) else none

/-- Host errors that the gas counter can produce
(`HostError` variants used in `gas_counter.rs`). -/
inductive HostError where
  | IntegerOverflow
  | GasLimitExceeded
  | GasExceeded
deriving DecidableEq, Repr

/-- `FastGasCounter` from `gas_counter.rs`. -/
structure FastGasCounter where
  burnt_gas : Nat
  gas_limit : Nat
  opcode_cost : Nat
deriving DecidableEq, Repr

/-- `GasCounter` from `gas_counter.rs` (the cost-profile bookkeeping fields,
which never influence gas arithmetic, are omitted). -/
structure GasCounter where
  fast_counter : FastGasCounter
  promises_gas : Nat
  max_gas_burnt : Nat
  prepaid_gas : Nat
  is_view : Bool
deriving DecidableEq, Repr

/-- `GasCounter::new`.  Prepaid gas is ignored (treated as `Gas::MAX`,
i.e. `U64SIZE - 1`) for view calls. -/
def GasCounter.new (max_gas_burnt : Nat) (opcode_cost : Nat) (prepaid_gas : Nat)
    (is_view : Bool) : GasCounter :=
  let prepaid := if is_view then U64SIZE - 1 else prepaid_gas
  { fast_counter :=
      { burnt_gas := 0
        gas_limit := min max_gas_burnt prepaid
        opcode_cost := opcode_cost }
    promises_gas := 0
    max_gas_burnt := max_gas_burnt
    prepaid_gas := prepaid
    is_view := is_view }

/-- `GasCounter::process_gas_limit`.  Clamps `burnt_gas` to
`min(prepaid_gas, max_gas_burnt)`, recomputes `promises_gas` with a
saturating subtraction (`Nat` subtraction saturates at 0), and reports
`GasLimitExceeded` when the burnt limit was crossed, `GasExceeded` otherwise. -/
def GasCounter.process_gas_limit (c : GasCounter) (new_burnt_gas new_used_gas : Nat) :
    GasCounter × HostError :=
  let hard_burnt_limit := min c.prepaid_gas c.max_gas_burnt
  let burnt := min new_burnt_gas hard_burnt_limit
  let used_gas_limit := min c.prepaid_gas new_used_gas
  let c' : GasCounter :=
    { c with
      fast_counter := { c.fast_counter with burnt_gas := burnt }
      promises_gas := used_gas_limit - burnt }
  (c', if c.max_gas_burnt < new_burnt_gas then HostError.GasLimitExceeded
       else HostError.GasExceeded)

/-- `GasCounter::burn_gas`.  On the error path `new_used_gas` is computed with
a wrapping add (`% 2^64`) before being handed to `process_gas_limit`. -/
def GasCounter.burn_gas (c : GasCounter) (gas_burnt : Nat) :
    GasCounter × Option HostError :=
  match checkedAdd c.fast_counter.burnt_gas gas_burnt with
  | none => (c, some HostError.IntegerOverflow)
  | some new_burnt_gas =>
    if new_burnt_gas ≤ c.fast_counter.gas_limit then
      ({ c with fast_counter := { c.fast_counter with burnt_gas := new_burnt_gas } }, none)
    else
      let new_used_gas := (new_burnt_gas + c.promises_gas) % U64SIZE
      let r := c.process_gas_limit new_burnt_gas new_used_gas
      (r.1, some r.2)

/-- `GasCounter::deduct_gas`.  The outer `Option` models the
`assert!(gas_burnt <= gas_used)`: `none` is the panic case.  Checked
additions that overflow return `IntegerOverflow` without mutation. -/
def GasCounter.deduct_gas (c : GasCounter) (gas_burnt gas_used : Nat) :
    Option (GasCounter × Option HostError) :=
  if gas_burnt ≤ gas_used then
    let promises_gas := gas_used - gas_burnt
    match checkedAdd c.promises_gas promises_gas with
    | none => some (c, some HostError.IntegerOverflow)
    | some new_promises_gas =>
      match checkedAdd c.fast_counter.burnt_gas gas_burnt with
      | none => some (c, some HostError.IntegerOverflow)
      | some new_burnt_gas =>
        match checkedAdd new_burnt_gas new_promises_gas with
        | none => some (c, some HostError.IntegerOverflow)
        | some new_used_gas =>
          if new_burnt_gas ≤ c.max_gas_burnt ∧ new_used_gas ≤ c.prepaid_gas then
            let c1 : GasCounter :=
              if promises_gas ≠ 0 ∧ c.is_view = false then
                { c with
                  fast_counter :=
                    { c.fast_counter with
                      gas_limit := min c.max_gas_burnt (c.prepaid_gas - new_promises_gas) } }
              else c
            some
              ({ c1 with
                 fast_counter := { c1.fast_counter with burnt_gas := new_burnt_gas }
                 promises_gas := new_promises_gas }, none)
          else
            let r := c.process_gas_limit new_burnt_gas new_used_gas
            some (r.1, some r.2)
  else none

/-- The gas-counter invariant: burnt gas never exceeds
`min(max_gas_burnt, prepaid_gas)`, and the fast counter's `gas_limit` is
always at most that bound. -/
def GasInv (c : GasCounter) : Prop :=
  c.fast_counter.burnt_gas ≤ min c.max_gas_burnt c.prepaid_gas ∧
  c.fast_counter.gas_limit ≤ min c.max_gas_burnt c.prepaid_gas

instance (c : GasCounter) : Decidable (GasInv c) := by
  unfold GasInv; infer_instance

end GasLogic

/-- A recorded transfer event (`Event` in both network files); `instant` is a
time stamp in seconds. -/
structure EventM where
  instant : Nat
  bytes : Nat
deriving DecidableEq, Repr

/-- `MinuteStats`, identical in both network files. -/
structure MinuteStatsM where
  bytes_per_min : Nat
  count_per_min : Nat
deriving DecidableEq, Repr

namespace RateCounter

/-- `TransferStats` from `chain/network/src/peer/rate_counter.rs`: a queue of
events from the last minute plus the running sum of their byte counts. -/
structure TransferStats where
  events : List EventM
  bytes_per_min : Nat
deriving DecidableEq, Repr

/-- The pop-front loop of `remove_old_entries` acting on the queue (front of
the list is the front of the `VecDeque`). -/
def removeOldAux (instant : Nat) : List EventM → Nat → List EventM × Nat
  | [], s => ([], s)
  | e :: rest, s =>
    if 60 < instant - e.instant then removeOldAux instant rest (s - e.bytes)
    else (e :: rest, s)

/-- `TransferStats::remove_old_entries` from `rate_counter.rs`. -/
def TransferStats.remove_old_entries (ts : TransferStats) (instant : Nat) : TransferStats :=
  let r := removeOldAux instant ts.events ts.bytes_per_min
  { events := r.1, bytes_per_min := r.2 }

/-- `TransferStats::record` from `rate_counter.rs`. -/
def TransferStats.record (ts : TransferStats) (bytes : Nat) (instant : Nat) : TransferStats :=
  TransferStats.remove_old_entries
    { events := ts.events ++ [{ instant := instant, bytes := bytes }]
      bytes_per_min := ts.bytes_per_min + bytes } instant

/-- `TransferStats::minute_stats` from `rate_counter.rs`; returns the stats
together with the post-call state (the method takes `&mut self`). -/
def TransferStats.minute_stats (ts : TransferStats) (instant : Nat) : MinuteStatsM × TransferStats :=
  let ts' := ts.remove_old_entries instant
  ({ bytes_per_min := ts'.bytes_per_min, count_per_min := ts'.events.length }, ts')

end RateCounter

namespace TransferStatsMod

/-- `TransferStats` from `chain/network/src/peer/transfer_stats.rs`. -/
structure TransferStats where
  events : List EventM
  total_bytes_in_events : Nat
deriving DecidableEq, Repr

/-- The pop-front loop of `remove_old_entries` acting on the queue. -/
def removeOldAux (now : Nat) : List EventM → Nat → List EventM × Nat
  | [], s => ([], s)
  | e :: rest, s =>
    if 60 < now - e.instant then removeOldAux now rest (s - e.bytes)
    else (e :: rest, s)

/-- `TransferStats::remove_old_entries` from `transfer_stats.rs`. -/
def TransferStats.remove_old_entries (ts : TransferStats) (now : Nat) : TransferStats :=
  let r := removeOldAux now ts.events ts.total_bytes_in_events
  { events := r.1, total_bytes_in_events := r.2 }

/-- `TransferStats::record` from `transfer_stats.rs` (the `debug_assert!` on
monotonicity has no effect on the computed state). -/
def TransferStats.record (ts : TransferStats) (bytes : Nat) (now : Nat) : TransferStats :=
  TransferStats.remove_old_entries
    { events := ts.events ++ [{ instant := now, bytes := bytes }]
      total_bytes_in_events := ts.total_bytes_in_events + bytes } now

/-- `TransferStats::minute_stats` from `transfer_stats.rs`. -/
def TransferStats.minute_stats (ts : TransferStats) (now : Nat) : MinuteStatsM × TransferStats :=
  let ts' := ts.remove_old_entries now
  ({ bytes_per_min := ts'.total_bytes_in_events, count_per_min := ts'.events.length }, ts')

end TransferStatsMod

/-- One call in a `TransferStats` usage trace: a `record` or a `minute_stats`. -/
inductive TransferOp where
  | recordOp (bytes : Nat) (now : Nat)
  | statsOp (now : Nat)
deriving DecidableEq, Repr

/-- The time stamp of a trace operation. -/
def TransferOp.now : TransferOp → Nat
  | .recordOp _ n => n
  | .statsOp n => n

/-- Whether the time stamps of a trace are non-decreasing. -/
def opsSorted : List TransferOp → Bool
  | [] => true
  | [_] => true
  | a :: b :: rest => decide (a.now ≤ b.now) && opsSorted (b :: rest)

/-- Run a trace against the `rate_counter.rs` implementation, collecting the
result of every `minute_stats` query. -/
def runRateCounter : RateCounter.TransferStats → List TransferOp → List MinuteStatsM
  | _, [] => []
  | ts, TransferOp.recordOp b n :: ops => runRateCounter (ts.record b n) ops
  | ts, TransferOp.statsOp n :: ops =>
    let r := ts.minute_stats n
    r.1 :: runRateCounter r.2 ops

/-- Run a trace against the `transfer_stats.rs` implementation, collecting the
result of every `minute_stats` query. -/
def runTransferStatsMod : TransferStatsMod.TransferStats → List TransferOp → List MinuteStatsM
  | _, [] => []
  | ts, TransferOp.recordOp b n :: ops => runTransferStatsMod (ts.record b n) ops
  | ts, TransferOp.statsOp n :: ops =>
    let r := ts.minute_stats n
    r.1 :: runTransferStatsMod r.2 ops

namespace EpochModel

/-- Kickout reasons (`ValidatorKickoutReason` in near-primitives).
Modelled from the spec: the tagged variant set
`{NotEnoughBlocks, NotEnoughChunks, NotEnoughChunkEndorsements, Unstaked,
NotEnoughStake, ProtocolVersionTooOld, Slashed}`. -/
inductive KickoutReason where
  | NotEnoughBlocks (produced expected : Nat)
  | NotEnoughChunks (produced expected : Nat)
  | NotEnoughChunkEndorsements (produced expected : Nat)
  | Unstaked
  | NotEnoughStake (stake threshold : Nat)
  | ProtocolVersionTooOld (version network_version : Nat)
  | Slashed
deriving DecidableEq, Repr

/-- Per-shard chunk statistics of one validator (`ChunkStats`): chunk
production and chunk endorsement, each as `(produced, expected)`. -/
structure ChunkStatsM where
  prodP : Nat
  prodE : Nat
  endP : Nat
  endE : Nat
deriving DecidableEq, Repr

/-- Pointwise sum of chunk statistics (aggregation across shards). -/
def ChunkStatsM.add (a b : ChunkStatsM) : ChunkStatsM :=
  ⟨a.prodP + b.prodP, a.prodE + b.prodE, a.endP + b.endP, a.endE + b.endE⟩

/-- Aggregated per-epoch performance of one validator: block production,
chunk production and chunk endorsement counters (summed over shards),
plus account id and stake. -/
structure ValidatorPerf where
  account : String
  stake : Nat
  blockP : Nat
  blockE : Nat
  chunkP : Nat
  chunkE : Nat
  endP : Nat
  endE : Nat
deriving DecidableEq, Repr

/-- Sum the chunk statistics of validator index `i` over all shards. -/
def shardStatsFor (shards : List (List (Nat × ChunkStatsM))) (i : Nat) : ChunkStatsM :=
  shards.foldl
    (fun acc sh =>
      match sh.lookup i with
      | some cs => acc.add cs
      | none => acc)
    ⟨0, 0, 0, 0⟩

/-- Build the aggregated performance table from an ordered validator list, a
block-production tracker (validator index to `(produced, expected)`) and
per-shard chunk statistics, mirroring the aggregation step of
`compute_validators_to_reward_and_kickout`. -/
def buildPerf (accounts : List (String × Nat)) (blockStats : List (Nat × Nat × Nat))
    (shards : List (List (Nat × ChunkStatsM))) : List ValidatorPerf :=
  accounts.enum.map
    (fun p =>
      let bs := (blockStats.lookup p.1).getD (0, 0)
      let cs := shardStatsFor shards p.1
      { account := p.2.1, stake := p.2.2, blockP := bs.1, blockE := bs.2,
        chunkP := cs.prodP, chunkE := cs.prodE, endP := cs.endP, endE := cs.endE })

/-- Modelled from the spec: the performance-kickout rule of the Kickout &
Reward Engine (`compute_validators_to_reward_and_kickout`, not under `src/`).
A validator is flagged by the first failing category in the fixed order
blocks, chunk production, chunk endorsements; ratios are compared by cross
multiplication against percentage thresholds, a category with zero expected
samples never fails, and the endorsement category applies only to chunk-only
validators (zero expected blocks and zero expected chunk productions). -/
def perfKickReason (thrB thrC thrE : Nat) (v : ValidatorPerf) : Option KickoutReason :=
  if v.blockP * 100 < thrB * v.blockE then
    some (KickoutReason.NotEnoughBlocks v.blockP v.blockE)
  else if v.chunkP * 100 < thrC * v.chunkE then
    some (KickoutReason.NotEnoughChunks v.chunkP v.chunkE)
  else if v.blockE = 0 ∧ v.chunkE = 0 ∧ v.endP * 100 < thrE * v.endE then
    some (KickoutReason.NotEnoughChunkEndorsements v.endP v.endE)
  else none

/-- Modelled from the spec: the full kickout reason for one validator.
Explicit unstake and protocol-version-too-old take precedence over every
performance reason. -/
def kickReasonFull (unstaked tooOld : Bool) (oldV newV : Nat)
    (thrB thrC thrE : Nat) (v : ValidatorPerf) : Option KickoutReason :=
  if unstaked then some KickoutReason.Unstaked
  else if tooOld then some (KickoutReason.ProtocolVersionTooOld oldV newV)
  else perfKickReason thrB thrC thrE v

/-- The flagged kickout candidates, in validator order. -/
def kickoutCandidates (thrB thrC thrE : Nat) (vs : List ValidatorPerf) :
    List (ValidatorPerf × KickoutReason) :=
  vs.filterMap (fun v => (perfKickReason thrB thrC thrE v).map (fun r => (v, r)))

/-- Total stake of a candidate list. -/
def stakeOf (K : List (ValidatorPerf × KickoutReason)) : Nat :=
  (K.map (fun c => c.1.stake)).sum

/-- Total stake of a validator set. -/
def totalStake (vs : List ValidatorPerf) : Nat :=
  (vs.map (fun v => v.stake)).sum

/-- Stake (at the current epoch) of the validators kicked out in the prior
epoch. -/
def prevKickStake (vs : List ValidatorPerf) (prevKick : List String) : Nat :=
  ((vs.filter (fun v => prevKick.contains v.account)).map (fun v => v.stake)).sum

/-- A `(produced, expected)` ratio normalised for comparison: zero expected
samples count as a full ratio. -/
def ratioPair (p e : Nat) : Nat × Nat :=
  if e = 0 then (1, 1) else (p, e)

/-- Strict ratio comparison by cross multiplication. -/
def ratioGtB (x y : Nat × Nat) : Bool :=
  decide (y.1 * x.2 < x.1 * y.2)

/-- The chunk-endorsement ratio of a validator. -/
def endorseRatio (v : ValidatorPerf) : Nat × Nat :=
  ratioPair v.endP v.endE

/-- The combined block and chunk production ratio of a validator. -/
def prodRatio (v : ValidatorPerf) : Nat × Nat :=
  ratioPair (v.blockP + v.chunkP) (v.blockE + v.chunkE)

/-- Lexicographic comparison of account ids by character code (the order of
Rust `AccountId` comparisons, byte-wise lexicographic). -/
def charListLtB : List Char → List Char → Bool
  | [], [] => false
  | [], _ :: _ => true
  | _ :: _, [] => false
  | a :: as, b :: bs =>
    if a.toNat < b.toNat then true
    else if b.toNat < a.toNat then false
    else charListLtB as bs

/-- Modelled from the spec: the deterministic exemption score order — `a` is
strictly better than `b` when its chunk-endorsement ratio is higher, then its
combined block+chunk production ratio, then its stake, with ties broken by
ascending account id. -/
def betterB (a b : ValidatorPerf) : Bool :=
  if ratioGtB (endorseRatio a) (endorseRatio b) then true
  else if ratioGtB (endorseRatio b) (endorseRatio a) then false
  else if ratioGtB (prodRatio a) (prodRatio b) then true
  else if ratioGtB (prodRatio b) (prodRatio a) then false
  else if b.stake < a.stake then true
  else if a.stake < b.stake then false
  else charListLtB a.account.data b.account.data

/-- Best-scored candidate of a list (the earliest listed wins exact ties). -/
def pickBest : List (ValidatorPerf × KickoutReason) →
    Option (ValidatorPerf × KickoutReason)
  | [] => none
  | c :: rest =>
    match pickBest rest with
    | none => some c
    | some b => if betterB b.1 c.1 then some b else some c

/-- Modelled from the spec: the max-kickout-stake safety valve.  While the
stake of the remaining candidates plus the prior epoch's kickout stake
exceeds `perc` percent of the total stake, the best-scored candidate not in
the prior kickout set is exempted.  `fuel` bounds the iteration (call with
the candidate count). -/
def exemptIter (pAccts : List String) (perc total pStake : Nat) :
    Nat → List (ValidatorPerf × KickoutReason) → List (ValidatorPerf × KickoutReason)
  | 0, K => K
  | fuel + 1, K =>
    if (stakeOf K + pStake) * 100 ≤ perc * total then K
    else
      match pickBest (K.filter (fun c => !(pAccts.contains c.1.account))) with
      | none => K
      | some b =>
        exemptIter pAccts perc total pStake fuel
          (K.filter (fun c => !(c.1.account == b.1.account)))

/-- The stake of the kickout set that the engine finally records: the
flagged candidates that survive the exemption loop. -/
def kickedStake (thrB thrC thrE perc : Nat) (vs : List ValidatorPerf)
    (prevKick : List String) : Nat :=
  stakeOf
    (exemptIter prevKick perc (totalStake vs) (prevKickStake vs prevKick)
      (kickoutCandidates thrB thrC thrE vs).length (kickoutCandidates thrB thrC thrE vs))

/-- Modelled from the spec: the Kickout & Reward Engine's kickout map — flag
candidates per category thresholds, then apply the max-kickout-stake safety
valve against the prior epoch's kickout set. -/
def computeKickout (thrB thrC thrE perc : Nat) (vs : List ValidatorPerf)
    (prevKick : List String) : List (String × KickoutReason) :=
  let K := kickoutCandidates thrB thrC thrE vs
  let K' := exemptIter prevKick perc (totalStake vs) (prevKickStake vs prevKick) K.length K
  K'.map (fun c => (c.1.account, c.2))

/-- The validator performance table of `test_validator_kickout_sanity`:
six accounts, two shards, thresholds 90 / 80 / 90. -/
def sanityPerf : List ValidatorPerf :=
  buildPerf
    [("test0", 1000), ("test1", 1000), ("test2", 1000),
     ("test3", 1000), ("test4", 500), ("test5", 500)]
    [(0, 100, 100), (1, 90, 100), (2, 100, 100), (3, 89, 100)]
    [[(0, ⟨100, 100, 0, 0⟩), (1, ⟨80, 100, 0, 100⟩), (2, ⟨70, 100, 0, 0⟩),
      (5, ⟨0, 0, 91, 100⟩)],
     [(0, ⟨70, 100, 0, 0⟩), (1, ⟨81, 100, 1, 100⟩), (3, ⟨100, 100, 0, 0⟩),
      (4, ⟨0, 0, 89, 100⟩)]]

/-- The validator performance table of `test_max_kickout_stake_ratio`:
five accounts staking 1000 each, thresholds 90 / 80 / 0, prior kickout
`test3`. -/
def maxKickoutPerf : List ValidatorPerf :=
  buildPerf
    [("test0", 1000), ("test1", 1000), ("test2", 1000),
     ("test3", 1000), ("test4", 1000)]
    [(0, 50, 100), (1, 70, 100), (2, 70, 100), (3, 0, 0)]
    [[(0, ⟨0, 100, 0, 0⟩), (1, ⟨0, 100, 0, 0⟩)],
     [(2, ⟨100, 100, 0, 0⟩), (4, ⟨50, 100, 0, 0⟩)]]

end EpochModel

namespace EpochModel

/-- The latest stake proposal of account `a` in a block-ordered proposal
list (later proposals override earlier ones). -/
def lastProposal (props : List (String × Nat)) (a : String) : Option Nat :=
  ((props.filter (fun p => p.1 == a)).getLast?).map (fun p => p.2)

/-- Deduplicate a list of accounts keeping first occurrences. -/
def dedupKeepFirst : List String → List String
  | [] => []
  | a :: rest => a :: (dedupKeepFirst rest).filter (fun b => !(b == a))

/-- Modelled from the spec: the stake-accounting step of the Validator
Selector (`proposals_to_epoch_info`, not under `src/`).  Kicked-out
validators are removed, the latest proposal per account overrides the prior
stake, a stake-0 proposal unstakes, and positive proposals from new accounts
join the candidate set. -/
def applyStakeChanges (prior : List (String × Nat)) (props : List (String × Nat))
    (kicked : List String) : List (String × Nat) :=
  let updatedPrior := prior.filterMap
    (fun v =>
      if kicked.contains v.1 then none
      else
        let s := (lastProposal props v.1).getD v.2
        if s = 0 then none else some (v.1, s))
  let newOnes := (dedupKeepFirst (props.map (fun p => p.1))).filterMap
    (fun a =>
      if prior.any (fun v => v.1 == a) || kicked.contains a then none
      else
        match lastProposal props a with
        | some s => if s = 0 then none else some (a, s)
        | none => none)
  updatedPrior ++ newOnes

/-- The outcome of validator selection for one epoch boundary. -/
structure NextEpochResult where
  validators : List (String × Nat)
  kickout : List (String × KickoutReason)
deriving DecidableEq, Repr

/-- Modelled from the spec: the Validator Selector's safety valve.  If
applying proposals and kickouts would empty the validator set, the change is
rejected and the prior validator set is reused with prior stakes and no
kickouts recorded. -/
def selectNext (prior : List (String × Nat)) (props : List (String × Nat))
    (kick : List (String × KickoutReason)) : NextEpochResult :=
  let cands := applyStakeChanges prior props (kick.map (fun k => k.1))
  if cands.isEmpty then { validators := prior, kickout := [] }
  else { validators := cands, kickout := kick }

/-- Modelled from the spec: the delayed-effect pipeline.  The proposals
collected during epoch `n` are applied when epoch `n` is finalized and
produce the validator set of epoch `n + 2`; epochs 0 and 1 use the genesis
set. -/
def epochSeq (genesis : List (String × Nat)) (props : Nat → List (String × Nat)) :
    Nat → List (String × Nat)
  | 0 => genesis
  | 1 => genesis
  | n + 2 => (selectNext (epochSeq genesis props (n + 1)) (props n) []).validators

/-- Nanoseconds in a second (`NUM_NS_IN_SECOND`). -/
def NUM_NS_IN_SECOND : Nat := 1000000000

/-- Reward-calculator parameters (`RewardCalculator`), with the two rational
rates kept as numerator/denominator pairs. -/
structure RewardConfig where
  maxInflationNum : Nat
  maxInflationDen : Nat
  protocolRewardNum : Nat
  protocolRewardDen : Nat
  numSecondsPerYear : Nat
deriving DecidableEq, Repr

/-- A validator as seen by the reward calculator: stake plus the online
reward weight as a rational `weightNum / weightDen`. -/
structure RewardValidator where
  account : String
  stake : Nat
  weightNum : Nat
  weightDen : Nat
deriving DecidableEq, Repr

/-- Modelled from the spec: the reward weight of a validator from its online
ratio `op / oe` — 0 below the min threshold, 1 above the max threshold,
linear interpolation in between. -/
def rewardWeight (mnNum mnDen mxNum mxDen op oe : Nat) : Nat × Nat :=
  if op * mnDen < mnNum * oe then (0, 1)
  else if mxNum * oe ≤ op * mxDen then (1, 1)
  else ((op * mnDen - mnNum * oe) * mxDen, oe * (mxNum * mnDen - mxDen * mnNum))

/-- Modelled from the spec: epoch inflation
`max_inflation_rate × total_supply × epoch_ns / year_ns`, computed with
exact integer intermediates. -/
def epochTotalReward (cfg : RewardConfig) (totalSupply epochNs : Nat) : Nat :=
  cfg.maxInflationNum * totalSupply * epochNs /
    (cfg.numSecondsPerYear * cfg.maxInflationDen * NUM_NS_IN_SECOND)

/-- One validator's reward: the validator pot distributed pro-rata by
`weight × stake` (integer floor). -/
def validatorReward (pot tStake : Nat) (v : RewardValidator) : Nat :=
  pot * v.weightNum * v.stake / (v.weightDen * tStake)

/-- Modelled from the spec: the Reward Calculator (`calculate_reward`, not
under `src/`).  The treasury gets `protocol_reward_rate × inflation` plus
the rounding residue, validators split the remainder pro-rata by
`weight × stake`, and the minted amount (the returned inflation) equals the
sum of all distributed amounts. -/
def calculateReward (cfg : RewardConfig) (vals : List RewardValidator)
    (totalSupply epochNs : Nat) : List (String × Nat) × Nat :=
  let total := epochTotalReward cfg totalSupply epochNs
  let treasuryBase := total * cfg.protocolRewardNum / cfg.protocolRewardDen
  let pot := total - treasuryBase
  let tStake := (vals.map (fun v => v.stake)).sum
  let rewards := vals.map (fun v => (v.account, validatorReward pot tStake v))
  let distributed := (rewards.map (fun r => r.2)).sum
  (("near", treasuryBase + (pot - distributed)) :: rewards, total)

/-- A block as the aggregator sees it (`BlockInfo` fields the block tracker
uses); hashes are abstract `Nat` identifiers. -/
structure BlockInfoA where
  hash : Nat
  prev : Nat
  height : Nat
  lastFinal : Nat
deriving DecidableEq, Repr

/-- Modelled from the spec: the `EpochInfoAggregator` (not under `src/`),
restricted to the block tracker — validator index to
`(produced, expected)` — plus the branch position it has been advanced to. -/
structure AggregatorM where
  lastBlockHash : Nat
  lastHeight : Nat
  blockTracker : List (Nat × Nat × Nat)
deriving DecidableEq, Repr

/-- Find a block info by hash. -/
def findBlock (store : List BlockInfoA) (h : Nat) : Option BlockInfoA :=
  store.find? (fun b => b.hash == h)

/-- Walk prev-links from `h` back to `stop` (exclusive), returning the blocks
in increasing height order; `none` if the walk fails within `fuel` steps. -/
def chainBack (store : List BlockInfoA) (stop : Nat) :
    Nat → Nat → Option (List BlockInfoA)
  | 0, h => if h == stop then some [] else none
  | fuel + 1, h =>
    if h == stop then some []
    else
      match findBlock store h with
      | none => none
      | some b => (chainBack store stop fuel b.prev).map (fun l => l ++ [b])

/-- Increment the `(produced, expected)` entry of producer `i`; `produced`
is incremented only when `prod` holds. -/
def bumpTracker : List (Nat × Nat × Nat) → Nat → Bool → List (Nat × Nat × Nat)
  | [], i, prod => [(i, (if prod then 1 else 0), 1)]
  | (j, p, e) :: rest, i, prod =>
    if j == i then (j, p + (if prod then 1 else 0), e + 1) :: rest
    else (j, p, e) :: bumpTracker rest i prod

/-- Fold one block into the tracker: every height since the previous tracked
block charges its assigned producer `bp h` with one expected block, and the
block's own height is also counted as produced. -/
def applyBlockTracker (bp : Nat → Nat) (t : List (Nat × Nat × Nat)) (ph : Nat)
    (b : BlockInfoA) : List (Nat × Nat × Nat) :=
  ((List.range (b.height - ph)).map (fun k => ph + 1 + k)).foldl
    (fun acc h => bumpTracker acc (bp h) (h == b.height)) t

/-- Fold one block into the aggregator. -/
def aggApply (bp : Nat → Nat) (agg : AggregatorM) (b : BlockInfoA) : AggregatorM :=
  { lastBlockHash := b.hash
    lastHeight := b.height
    blockTracker := applyBlockTracker bp agg.blockTracker agg.lastHeight b }

/-- The aggregator advanced from its current position to `target`:
`fold(blocks_up_to(target), agg, apply_block)`. -/
def aggUpto (store : List BlockInfoA) (bp : Nat → Nat) (agg : AggregatorM)
    (target : Nat) : Option AggregatorM :=
  (chainBack store agg.lastBlockHash (store.length + 1) target).map
    (fun path => path.foldl (aggApply bp) agg)

/-- The Epoch Manager state the aggregator queries touch: the block-info
store and the persisted aggregator. -/
structure EMState where
  store : List BlockInfoA
  agg : AggregatorM
deriving DecidableEq, Repr

/-- Modelled from the spec: `get_epoch_info_aggregator_upto_last` — the
query returns a copy of the aggregator advanced to `target` and leaves the
state untouched. -/
def getUpto (m : EMState) (bp : Nat → Nat) (target : Nat) :
    Option AggregatorM × EMState :=
  (aggUpto m.store bp m.agg target, m)

/-- Modelled from the spec: the persisted advance of the aggregator tail
(performed only up to the last-final block by the core). -/
def updateTail (m : EMState) (bp : Nat → Nat) (target : Nat) : EMState :=
  match aggUpto m.store bp m.agg target with
  | none => m
  | some a => { m with agg := a }

end EpochModel

namespace EpochModel

/-- The proposal stream of `test_stake_validator`: `test2` proposes a stake
of 1000000 during epoch 1, no other proposals. -/
def stakeValidatorProps : Nat → List (String × Nat) :=
  fun n => if n = 1 then [("test2", 1000000)] else []

/-- A single recorded block used to exercise the aggregator query. -/
def wBlock : BlockInfoA :=
  { hash := 1, prev := 0, height := 1, lastFinal := 0 }

/-- An epoch-manager state whose persisted aggregator still sits at the
genesis position. -/
def wEM : EMState :=
  { store := [wBlock]
    agg := { lastBlockHash := 0, lastHeight := 0, blockTracker := [] } }

/-- The aggregator advanced from the genesis position over `wBlock`. -/
def wAgg : AggregatorM :=
  { lastBlockHash := 1, lastHeight := 1, blockTracker := [(0, 1, 1)] }

end EpochModel

/-- The correspondence between the two `TransferStats` states: equal event
queues, and the byte sums (`bytes_per_min` versus `total_bytes_in_events`)
agree. -/
def statesMatch (a : RateCounter.TransferStats) (b : TransferStatsMod.TransferStats) : Prop :=
  a.events = b.events ∧ a.bytes_per_min = b.total_bytes_in_events

lemma removeOldAux_eq (now : Nat) : ∀ (l : List EventM) (s : Nat),
    RateCounter.removeOldAux now l s = TransferStatsMod.removeOldAux now l s := by
  intro l
  induction l with
  | nil => intro s; rfl
  | cons e rest ih =>
    intro s
    by_cases h : 60 < now - e.instant
    · simp only [RateCounter.removeOldAux, TransferStatsMod.removeOldAux, if_pos h]
      exact ih _
    · simp only [RateCounter.removeOldAux, TransferStatsMod.removeOldAux, if_neg h]

lemma remove_match (now : Nat) (a : RateCounter.TransferStats)
    (b : TransferStatsMod.TransferStats) (h : statesMatch a b) :
    statesMatch (a.remove_old_entries now) (b.remove_old_entries now) := by
  obtain ⟨he, hs⟩ := h
  unfold RateCounter.TransferStats.remove_old_entries
    TransferStatsMod.TransferStats.remove_old_entries
  rw [statesMatch]
  rw [he, hs, removeOldAux_eq]
  exact ⟨rfl, rfl⟩

lemma record_match (bytes now : Nat) (a : RateCounter.TransferStats)
    (b : TransferStatsMod.TransferStats) (h : statesMatch a b) :
    statesMatch (a.record bytes now) (b.record bytes now) := by
  obtain ⟨he, hs⟩ := h
  unfold RateCounter.TransferStats.record TransferStatsMod.TransferStats.record
  exact remove_match now _ _ ⟨by rw [he], by rw [hs]⟩

lemma minute_match (now : Nat) (a : RateCounter.TransferStats)
    (b : TransferStatsMod.TransferStats) (h : statesMatch a b) :
    (a.minute_stats now).1 = (b.minute_stats now).1 ∧
      statesMatch (a.minute_stats now).2 (b.minute_stats now).2 := by
  have hm := remove_match now a b h
  obtain ⟨he, hs⟩ := hm
  unfold RateCounter.TransferStats.minute_stats TransferStatsMod.TransferStats.minute_stats
  refine ⟨?_, he, hs⟩
  rw [MinuteStatsM.mk.injEq]
  exact ⟨hs, by rw [he]⟩

lemma run_equiv : ∀ (ops : List TransferOp) (a : RateCounter.TransferStats)
    (b : TransferStatsMod.TransferStats), statesMatch a b →
    runRateCounter a ops = runTransferStatsMod b ops := by
  intro ops
  induction ops with
  | nil => intro a b _; rfl
  | cons op rest ih =>
    intro a b h
    cases op with
    | recordOp bytes now =>
      simp only [runRateCounter, runTransferStatsMod]
      exact ih _ _ (record_match bytes now a b h)
    | statsOp now =>
      simp only [runRateCounter, runTransferStatsMod]
      obtain ⟨h1, h2⟩ := minute_match now a b h
      rw [h1, ih _ _ h2]

/-- C9: the two `TransferStats` implementations (in `rate_counter.rs` and
`transfer_stats.rs`) are observationally equivalent — for every sequence of
`record` and `minute_stats` calls with non-decreasing instants, both produce
identical `MinuteStats` results at every query. -/
theorem transfer_stats_equivalence :
    ∀ ops : List TransferOp,
      opsSorted ops = true →
      runRateCounter { events := [], bytes_per_min := 0 } ops =
        runTransferStatsMod { events := [], total_bytes_in_events := 0 } ops := by
  intro ops _
  exact run_equiv ops _ _ ⟨rfl, rfl⟩

/-- Witness for C9: a concrete monotone trace (the trace of the unit test in
both files) evaluated through the theorem. -/
theorem transfer_stats_equivalence_witness :
    runRateCounter { events := [], bytes_per_min := 0 }
        [TransferOp.recordOp 10 0, TransferOp.statsOp 0, TransferOp.recordOp 100 45,
         TransferOp.statsOp 45, TransferOp.recordOp 1000 59, TransferOp.statsOp 59,
         TransferOp.statsOp 61, TransferOp.statsOp 121] =
      runTransferStatsMod { events := [], total_bytes_in_events := 0 }
        [TransferOp.recordOp 10 0, TransferOp.statsOp 0, TransferOp.recordOp 100 45,
         TransferOp.statsOp 45, TransferOp.recordOp 1000 59, TransferOp.statsOp 59,
         TransferOp.statsOp 61, TransferOp.statsOp 121] :=
  transfer_stats_equivalence
    [TransferOp.recordOp 10 0, TransferOp.statsOp 0, TransferOp.recordOp 100 45,
     TransferOp.statsOp 45, TransferOp.recordOp 1000 59, TransferOp.statsOp 59,
     TransferOp.statsOp 61, TransferOp.statsOp 121] (by decide)

/-- C2: if applying proposals and kickouts would leave the next validator
set empty, the selector rejects the change and the next validator set equals
the prior set with prior stakes and an empty kickout map; consequently the
next validator set is non-empty whenever the prior one is.  The closed
conjunct is the three-validator unstake-all scenario of
`test_all_validators_unstake`. -/
theorem EpochModel.unstake_all_safety_valve :
    (∀ (prior props : List (String × Nat)) (kick : List (String × EpochModel.KickoutReason)),
        prior ≠ [] → (EpochModel.selectNext prior props kick).validators ≠ []) ∧
    (∀ (prior props : List (String × Nat)) (kick : List (String × EpochModel.KickoutReason)),
        EpochModel.applyStakeChanges prior props (kick.map (fun k => k.1)) = [] →
        EpochModel.selectNext prior props kick =
          { validators := prior, kickout := [] }) ∧
    EpochModel.selectNext [("test1", 1000), ("test2", 1000), ("test3", 1000)]
        [("test1", 0), ("test2", 0), ("test3", 0)] [] =
      { validators := [("test1", 1000), ("test2", 1000), ("test3", 1000)],
        kickout := [] } := by
  refine ⟨?_, ?_, by decide⟩
  · intro prior props kick hp
    unfold EpochModel.selectNext
    cases hc : EpochModel.applyStakeChanges prior props (kick.map (fun k => k.1)) with
    | nil => simpa using hp
    | cons a t => simp
  · intro prior props kick h
    unfold EpochModel.selectNext
    rw [h]
    rfl

/-- Witness for C2: the safety valve applied to a non-empty prior set. -/
theorem EpochModel.unstake_all_safety_valve_witness :
    (EpochModel.selectNext [("test1", 1000), ("test2", 1000), ("test3", 1000)]
        [("test1", 0), ("test2", 0), ("test3", 0)] []).validators ≠ [] :=
  EpochModel.unstake_all_safety_valve.1 [("test1", 1000), ("test2", 1000), ("test3", 1000)]
    [("test1", 0), ("test2", 0), ("test3", 0)] [] (by decide)

lemma EpochModel.epochSeq_congr (genesis : List (String × Nat))
    (props props' : Nat → List (String × Nat)) :
    ∀ n, (∀ m, m + 2 ≤ n → props m = props' m) →
      EpochModel.epochSeq genesis props n = EpochModel.epochSeq genesis props' n := by
  intro n
  induction n using Nat.strong_induction_on with
  | _ n ih =>
    match n with
    | 0 => intro _; rfl
    | 1 => intro _; rfl
    | (m + 2) =>
      intro hag
      have h1 := ih (m + 1) (by omega) (fun k hk => hag k (by omega))
      have h2 : props m = props' m := hag m (by omega)
      simp only [EpochModel.epochSeq]
      rw [h1, h2]

/-- C3: a stake proposal recorded in epoch `E` first changes the validator
set at epoch `E + 2` — the validator set of epoch `n` depends only on the
proposals of epochs `m` with `m + 2 ≤ n`, and in the `test_stake_validator`
scenario (proposal by `test2` during epoch 1) epochs 1 and 2 are unchanged
while epoch 3 contains the proposer. -/
theorem EpochModel.proposal_delayed_effect :
    (∀ (genesis : List (String × Nat)) (props props' : Nat → List (String × Nat)) (n : Nat),
        (∀ m, m + 2 ≤ n → props m = props' m) →
        EpochModel.epochSeq genesis props n = EpochModel.epochSeq genesis props' n) ∧
    (EpochModel.epochSeq [("test1", 1000000)] EpochModel.stakeValidatorProps 1 =
        [("test1", 1000000)] ∧
     EpochModel.epochSeq [("test1", 1000000)] EpochModel.stakeValidatorProps 2 =
        [("test1", 1000000)] ∧
     EpochModel.epochSeq [("test1", 1000000)] EpochModel.stakeValidatorProps 3 =
        [("test1", 1000000), ("test2", 1000000)]) :=
  ⟨fun g p p' n => EpochModel.epochSeq_congr g p p' n, by decide, by decide, by decide⟩

/-- Witness for C3: two proposal streams that differ only at epoch 2 yield
the same epoch-3 validator set. -/
theorem EpochModel.proposal_delayed_effect_witness :
    EpochModel.epochSeq [("test1", 1000000)] EpochModel.stakeValidatorProps 3 =
      EpochModel.epochSeq [("test1", 1000000)]
        (fun n => if n = 2 then [("test3", 7)] else EpochModel.stakeValidatorProps n) 3 :=
  EpochModel.proposal_delayed_effect.1 [("test1", 1000000)] EpochModel.stakeValidatorProps
    (fun n => if n = 2 then [("test3", 7)] else EpochModel.stakeValidatorProps n) 3
    (fun m hm => by
      have h0 : m = 0 ∨ m = 1 := by omega
      cases h0 with
      | inl h => rw [h]; rfl
      | inr h => rw [h]; rfl)

/-- C6: the aggregator query `get_upto` is non-mutating and idempotent — it
returns a copy of the aggregator as if advanced to the target hash (exactly
the aggregator a persisted `update_tail` to the same hash would store)
without changing the state, its persisted `last_block_hash` stays put, and
two calls with the same hash return equal values. -/
theorem EpochModel.aggregator_get_upto_pure :
    (∀ (m : EpochModel.EMState) (bp : Nat → Nat) (target : Nat),
        (EpochModel.getUpto m bp target).2 = m) ∧
    (∀ (m : EpochModel.EMState) (bp : Nat → Nat) (target : Nat),
        ((EpochModel.getUpto m bp target).2).agg.lastBlockHash = m.agg.lastBlockHash) ∧
    (∀ (m : EpochModel.EMState) (bp : Nat → Nat) (target : Nat),
        (EpochModel.getUpto m bp target).1 =
          (EpochModel.getUpto ((EpochModel.getUpto m bp target).2) bp target).1) ∧
    (∀ (m : EpochModel.EMState) (bp : Nat → Nat) (target : Nat) (a : EpochModel.AggregatorM),
        (EpochModel.getUpto m bp target).1 = some a →
        (EpochModel.updateTail m bp target).agg = a) := by
  refine ⟨fun m bp t => rfl, fun m bp t => rfl, fun m bp t => rfl, ?_⟩
  intro m bp t a h
  unfold EpochModel.getUpto at h
  unfold EpochModel.updateTail
  simp only at h
  rw [h]

/-- Witness for C6: the copy-of-advance conjunct on a one-block chain. -/
theorem EpochModel.aggregator_get_upto_pure_witness :
    (EpochModel.updateTail EpochModel.wEM (fun _ => 0) 1).agg = EpochModel.wAgg :=
  EpochModel.aggregator_get_upto_pure.2.2.2 EpochModel.wEM (fun _ => 0) 1
    EpochModel.wAgg (by decide)

lemma GasLogic.checkedAdd_some {a b z : Nat} (h : GasLogic.checkedAdd a b = some z) :
    z = a + b ∧ a + b < GasLogic.U64SIZE := by
  unfold GasLogic.checkedAdd at h
  by_cases hc : a + b < GasLogic.U64SIZE
  · rw [if_pos hc] at h
    injection h with h
    exact ⟨h.symm, hc⟩
  · rw [if_neg hc] at h
    cases h

/-- C8: on `burn_gas`'s error path (the checked add succeeded but the new
burnt gas exceeds the stored `gas_limit`), `new_used_gas` is computed with a
wrapping add, `process_gas_limit` clamps `burnt_gas` to
`min(prepaid_gas, max_gas_burnt)` and recomputes `promises_gas` by a
saturating subtraction (0 on wrap-around), and the returned error is always
`GasLimitExceeded` or `GasExceeded` — never a panic. -/
theorem GasLogic.burn_gas_error_path_clamps :
    ∀ (c : GasLogic.GasCounter) (g : Nat),
      c.fast_counter.burnt_gas + g < GasLogic.U64SIZE →
      c.fast_counter.gas_limit < c.fast_counter.burnt_gas + g →
      ((c.burn_gas g).2 =
          some (if c.max_gas_burnt < c.fast_counter.burnt_gas + g
                then GasLogic.HostError.GasLimitExceeded
                else GasLogic.HostError.GasExceeded) ∧
       (c.burn_gas g).1.fast_counter.burnt_gas =
          min (c.fast_counter.burnt_gas + g) (min c.prepaid_gas c.max_gas_burnt) ∧
       (c.burn_gas g).1.promises_gas =
          min c.prepaid_gas
              ((c.fast_counter.burnt_gas + g + c.promises_gas) % GasLogic.U64SIZE) -
            (c.burn_gas g).1.fast_counter.burnt_gas ∧
       ((c.burn_gas g).1.promises_gas = 0 ∨
        (c.burn_gas g).1.fast_counter.burnt_gas + (c.burn_gas g).1.promises_gas =
          min c.prepaid_gas
              ((c.fast_counter.burnt_gas + g + c.promises_gas) % GasLogic.U64SIZE))) := by
  intro c g h1 h2
  have hca : GasLogic.checkedAdd c.fast_counter.burnt_gas g =
      some (c.fast_counter.burnt_gas + g) := by
    unfold GasLogic.checkedAdd
    rw [if_pos h1]
  have hb : c.burn_gas g =
      ((c.process_gas_limit (c.fast_counter.burnt_gas + g)
          ((c.fast_counter.burnt_gas + g + c.promises_gas) % GasLogic.U64SIZE)).1,
        some (c.process_gas_limit (c.fast_counter.burnt_gas + g)
          ((c.fast_counter.burnt_gas + g + c.promises_gas) % GasLogic.U64SIZE)).2) := by
    unfold GasLogic.GasCounter.burn_gas
    rw [hca]
    simp only [if_neg (Nat.not_le.mpr h2)]
  rw [hb]
  unfold GasLogic.GasCounter.process_gas_limit
  refine ⟨rfl, rfl, rfl, ?_⟩
  simp only
  omega

/-- Witness for C8: a counter with `max_gas_burnt = 5`, `prepaid_gas = 7`
burning 8 gas crosses the limit and is clamped. -/
theorem GasLogic.burn_gas_error_path_clamps_witness :
    (((GasLogic.GasCounter.new 5 1 7 false).burn_gas 8).2 =
        some (if (GasLogic.GasCounter.new 5 1 7 false).max_gas_burnt <
                  (GasLogic.GasCounter.new 5 1 7 false).fast_counter.burnt_gas + 8
              then GasLogic.HostError.GasLimitExceeded
              else GasLogic.HostError.GasExceeded) ∧
     ((GasLogic.GasCounter.new 5 1 7 false).burn_gas 8).1.fast_counter.burnt_gas =
        min ((GasLogic.GasCounter.new 5 1 7 false).fast_counter.burnt_gas + 8)
            (min (GasLogic.GasCounter.new 5 1 7 false).prepaid_gas
                 (GasLogic.GasCounter.new 5 1 7 false).max_gas_burnt) ∧
     ((GasLogic.GasCounter.new 5 1 7 false).burn_gas 8).1.promises_gas =
        min (GasLogic.GasCounter.new 5 1 7 false).prepaid_gas
            (((GasLogic.GasCounter.new 5 1 7 false).fast_counter.burnt_gas + 8 +
               (GasLogic.GasCounter.new 5 1 7 false).promises_gas) % GasLogic.U64SIZE) -
          ((GasLogic.GasCounter.new 5 1 7 false).burn_gas 8).1.fast_counter.burnt_gas ∧
     (((GasLogic.GasCounter.new 5 1 7 false).burn_gas 8).1.promises_gas = 0 ∨
      ((GasLogic.GasCounter.new 5 1 7 false).burn_gas 8).1.fast_counter.burnt_gas +
          ((GasLogic.GasCounter.new 5 1 7 false).burn_gas 8).1.promises_gas =
        min (GasLogic.GasCounter.new 5 1 7 false).prepaid_gas
            (((GasLogic.GasCounter.new 5 1 7 false).fast_counter.burnt_gas + 8 +
               (GasLogic.GasCounter.new 5 1 7 false).promises_gas) % GasLogic.U64SIZE))) :=
  GasLogic.burn_gas_error_path_clamps (GasLogic.GasCounter.new 5 1 7 false) 8
    (by decide) (by decide)

/-- C10: the gas counter maintains
`burnt_gas ≤ min(max_gas_burnt, prepaid_gas)` (with prepaid gas treated as
unlimited for view calls at construction) across every operation: it holds
at construction, is preserved by `burn_gas` and by every non-panicking
`deduct_gas`, and `process_gas_limit` clamps the burnt gas to the hard
limit while leaving the stored `gas_limit` unchanged. -/
theorem GasLogic.gas_counter_invariant :
    (∀ (mx oc pp : Nat) (v : Bool), GasLogic.GasInv (GasLogic.GasCounter.new mx oc pp v)) ∧
    (∀ (c : GasLogic.GasCounter) (g : Nat),
        GasLogic.GasInv c → GasLogic.GasInv (c.burn_gas g).1) ∧
    (∀ (c : GasLogic.GasCounter) (b u : Nat) (r : GasLogic.GasCounter × Option GasLogic.HostError),
        GasLogic.GasInv c → c.deduct_gas b u = some r → GasLogic.GasInv r.1) ∧
    (∀ (c : GasLogic.GasCounter) (nb nu : Nat),
        (c.process_gas_limit nb nu).1.fast_counter.burnt_gas ≤
          min c.max_gas_burnt c.prepaid_gas ∧
        (c.process_gas_limit nb nu).1.fast_counter.gas_limit = c.fast_counter.gas_limit) := by
  refine ⟨?_, ?_, ?_, ?_⟩
  · intro mx oc pp v
    unfold GasLogic.GasInv GasLogic.GasCounter.new
    simp only
    omega
  · intro c g hInv
    obtain ⟨hBurnt, hLim⟩ := hInv
    unfold GasLogic.GasCounter.burn_gas
    cases hca : GasLogic.checkedAdd c.fast_counter.burnt_gas g with
    | none => exact ⟨hBurnt, hLim⟩
    | some nb =>
      simp only
      by_cases hle : nb ≤ c.fast_counter.gas_limit
      · rw [if_pos hle]
        exact ⟨le_trans hle hLim, hLim⟩
      · rw [if_neg hle]
        unfold GasLogic.GasCounter.process_gas_limit
        refine ⟨?_, hLim⟩
        simp only
        omega
  · intro c b u r hInv h
    obtain ⟨hBurnt, hLim⟩ := hInv
    unfold GasLogic.GasCounter.deduct_gas at h
    by_cases hbu : b ≤ u
    · rw [if_pos hbu] at h
      dsimp only at h
      cases h1 : GasLogic.checkedAdd c.promises_gas (u - b) with
      | none =>
        rw [h1] at h
        injection h with h
        rw [← h]
        exact ⟨hBurnt, hLim⟩
      | some np =>
        rw [h1] at h
        cases h2 : GasLogic.checkedAdd c.fast_counter.burnt_gas b with
        | none =>
          rw [h2] at h
          injection h with h
          rw [← h]
          exact ⟨hBurnt, hLim⟩
        | some nb =>
          rw [h2] at h
          dsimp only at h
          cases h3 : GasLogic.checkedAdd nb np with
          | none =>
            rw [h3] at h
            injection h with h
            rw [← h]
            exact ⟨hBurnt, hLim⟩
          | some nu =>
            rw [h3] at h
            dsimp only at h
            obtain ⟨hnu, _⟩ := GasLogic.checkedAdd_some h3
            by_cases h4 : nb ≤ c.max_gas_burnt ∧ nu ≤ c.prepaid_gas
            · rw [if_pos h4] at h
              injection h with h
              rw [← h]
              by_cases h5 : u - b ≠ 0 ∧ c.is_view = false
              · rw [if_pos h5]
                constructor
                · simp only
                  omega
                · simp only
                  omega
              · rw [if_neg h5]
                constructor
                · simp only
                  omega
                · exact hLim
            · rw [if_neg h4] at h
              injection h with h
              rw [← h]
              unfold GasLogic.GasCounter.process_gas_limit
              refine ⟨?_, hLim⟩
              simp only
              omega
    · rw [if_neg hbu] at h
      cases h
  · intro c nb nu
    unfold GasLogic.GasCounter.process_gas_limit
    refine ⟨?_, rfl⟩
    simp only
    omega

/-- Witness for C10: the invariant after constructing a counter and after a
successful and a clamped burn. -/
theorem GasLogic.gas_counter_invariant_witness :
    GasLogic.GasInv (GasLogic.GasCounter.new 10 1 7 false) ∧
    GasLogic.GasInv ((GasLogic.GasCounter.new 10 1 7 false).burn_gas 9).1 ∧
    GasLogic.GasInv (((GasLogic.GasCounter.new 10 1 7 false).burn_gas 5).1.burn_gas 5).1 :=
  ⟨GasLogic.gas_counter_invariant.1 10 1 7 false,
   GasLogic.gas_counter_invariant.2.1 (GasLogic.GasCounter.new 10 1 7 false) 9
     (GasLogic.gas_counter_invariant.1 10 1 7 false),
   GasLogic.gas_counter_invariant.2.1 ((GasLogic.GasCounter.new 10 1 7 false).burn_gas 5).1 5
     (GasLogic.gas_counter_invariant.2.1 (GasLogic.GasCounter.new 10 1 7 false) 5
       (GasLogic.gas_counter_invariant.1 10 1 7 false))⟩

/-- C4: for every validator flagged for performance kickout the recorded
reason is the first failing category in the fixed order blocks, chunk
production, chunk endorsements, and `Unstaked` and `ProtocolVersionTooOld`
take precedence over all performance reasons.  The closed conjunct is the
full kickout map of the `test_validator_kickout_sanity` scenario. -/
theorem EpochModel.kickout_reason_priority :
    (∀ (t : Bool) (oV nV tB tC tE : Nat) (v : EpochModel.ValidatorPerf),
        EpochModel.kickReasonFull true t oV nV tB tC tE v =
          some EpochModel.KickoutReason.Unstaked) ∧
    (∀ (oV nV tB tC tE : Nat) (v : EpochModel.ValidatorPerf),
        EpochModel.kickReasonFull false true oV nV tB tC tE v =
          some (EpochModel.KickoutReason.ProtocolVersionTooOld oV nV)) ∧
    (∀ (tB tC tE : Nat) (v : EpochModel.ValidatorPerf),
        EpochModel.kickReasonFull false false 0 0 tB tC tE v =
          EpochModel.perfKickReason tB tC tE v) ∧
    (∀ (tB tC tE : Nat) (v : EpochModel.ValidatorPerf),
        v.blockP * 100 < tB * v.blockE →
        EpochModel.perfKickReason tB tC tE v =
          some (EpochModel.KickoutReason.NotEnoughBlocks v.blockP v.blockE)) ∧
    (∀ (tB tC tE : Nat) (v : EpochModel.ValidatorPerf),
        ¬v.blockP * 100 < tB * v.blockE →
        v.chunkP * 100 < tC * v.chunkE →
        EpochModel.perfKickReason tB tC tE v =
          some (EpochModel.KickoutReason.NotEnoughChunks v.chunkP v.chunkE)) ∧
    (∀ (tB tC tE : Nat) (v : EpochModel.ValidatorPerf),
        ¬v.blockP * 100 < tB * v.blockE →
        ¬v.chunkP * 100 < tC * v.chunkE →
        v.blockE = 0 → v.chunkE = 0 →
        v.endP * 100 < tE * v.endE →
        EpochModel.perfKickReason tB tC tE v =
          some (EpochModel.KickoutReason.NotEnoughChunkEndorsements v.endP v.endE)) ∧
    EpochModel.computeKickout 90 80 90 100 EpochModel.sanityPerf [] =
      [("test2", EpochModel.KickoutReason.NotEnoughChunks 70 100),
       ("test3", EpochModel.KickoutReason.NotEnoughBlocks 89 100),
       ("test4", EpochModel.KickoutReason.NotEnoughChunkEndorsements 89 100)] := by
  refine ⟨?_, ?_, ?_, ?_, ?_, ?_, by decide⟩
  · intro t oV nV tB tC tE v
    rfl
  · intro oV nV tB tC tE v
    rfl
  · intro tB tC tE v
    rfl
  · intro tB tC tE v h
    unfold EpochModel.perfKickReason
    rw [if_pos h]
  · intro tB tC tE v h1 h2
    unfold EpochModel.perfKickReason
    rw [if_neg h1, if_pos h2]
  · intro tB tC tE v h1 h2 h3 h4 h5
    unfold EpochModel.perfKickReason
    rw [if_neg h1, if_neg h2, if_pos ⟨h3, h4, h5⟩]

/-- Witness for C4: the blocks-before-chunks priority on the `test3` row of
the sanity scenario (89 of 100 blocks, all chunks produced). -/
theorem EpochModel.kickout_reason_priority_witness :
    EpochModel.perfKickReason 90 80 90
        { account := "test3", stake := 1000, blockP := 89, blockE := 100,
          chunkP := 100, chunkE := 100, endP := 0, endE := 0 } =
      some (EpochModel.KickoutReason.NotEnoughBlocks 89 100) :=
  EpochModel.kickout_reason_priority.2.2.2.1 90 80 90
    { account := "test3", stake := 1000, blockP := 89, blockE := 100,
      chunkP := 100, chunkE := 100, endP := 0, endE := 0 } (by decide)

/-- C5: a chunk-only validator (zero expected blocks and zero expected chunk
productions) is evaluated for kickout solely on its chunk-endorsement ratio,
a validator with expected blocks or chunk productions is never kicked for
low endorsements, and in the six-account sanity scenario with endorsement
threshold 90, `test4` (89 of 100) is kicked with
`NotEnoughChunkEndorsements` while `test5` (91 of 100) is not. -/
theorem EpochModel.chunk_only_endorsement_kickout :
    (∀ (tB tC tE : Nat) (v : EpochModel.ValidatorPerf),
        v.blockE = 0 → v.chunkE = 0 →
        EpochModel.perfKickReason tB tC tE v =
          (if v.endP * 100 < tE * v.endE then
            some (EpochModel.KickoutReason.NotEnoughChunkEndorsements v.endP v.endE)
          else none)) ∧
    (∀ (tB tC tE p e : Nat) (v : EpochModel.ValidatorPerf),
        0 < v.blockE ∨ 0 < v.chunkE →
        EpochModel.perfKickReason tB tC tE v ≠
          some (EpochModel.KickoutReason.NotEnoughChunkEndorsements p e)) ∧
    ((EpochModel.computeKickout 90 80 90 100 EpochModel.sanityPerf []).lookup "test4" =
        some (EpochModel.KickoutReason.NotEnoughChunkEndorsements 89 100) ∧
     (EpochModel.computeKickout 90 80 90 100 EpochModel.sanityPerf []).lookup "test5" =
        none) := by
  refine ⟨?_, ?_, by decide, by decide⟩
  · intro tB tC tE v h1 h2
    unfold EpochModel.perfKickReason
    rw [h1, h2]
    simp
  · intro tB tC tE p e v hpos
    unfold EpochModel.perfKickReason
    split
    · intro hc
      cases hc
    · split
      · intro hc
        cases hc
      · split
        · rename_i hck
          obtain ⟨hb0, hc0, _⟩ := hck
          cases hpos with
          | inl hp => omega
          | inr hp => omega
        · intro hc
          cases hc

/-- Witness for C5: the chunk-only rule applied to the `test4` row of the
sanity scenario. -/
theorem EpochModel.chunk_only_endorsement_kickout_witness :
    EpochModel.perfKickReason 90 80 90
        { account := "test4", stake := 500, blockP := 0, blockE := 0,
          chunkP := 0, chunkE := 0, endP := 89, endE := 100 } =
      (if 89 * 100 < 90 * 100 then
        some (EpochModel.KickoutReason.NotEnoughChunkEndorsements 89 100)
      else none) :=
  EpochModel.chunk_only_endorsement_kickout.1 90 80 90
    { account := "test4", stake := 500, blockP := 0, blockE := 0,
      chunkP := 0, chunkE := 0, endP := 89, endE := 100 } (by decide) (by decide)

lemma addDivLe (a b c : Nat) : a / c + b / c ≤ (a + b) / c := by
  rcases Nat.eq_zero_or_pos c with hc | hc
  · subst hc
    simp
  · rw [Nat.le_div_iff_mul_le hc]
    calc (a / c + b / c) * c = a / c * c + b / c * c := by ring
    _ ≤ a + b := Nat.add_le_add (Nat.div_mul_le_self a c) (Nat.div_mul_le_self b c)

lemma sumDivLe (l : List Nat) (d : Nat) : (l.map (fun a => a / d)).sum ≤ l.sum / d := by
  induction l with
  | nil => simp
  | cons a rest ih =>
    simp only [List.map_cons, List.sum_cons]
    calc a / d + (rest.map (fun x => x / d)).sum ≤ a / d + rest.sum / d :=
        Nat.add_le_add_left ih _
    _ ≤ (a + rest.sum) / d := addDivLe a rest.sum d

lemma validatorReward_le (pot T : Nat) (v : EpochModel.RewardValidator)
    (h1 : v.weightNum ≤ v.weightDen) (h2 : 0 < v.weightDen) :
    EpochModel.validatorReward pot T v ≤ pot * v.stake / T := by
  unfold EpochModel.validatorReward
  calc pot * v.weightNum * v.stake / (v.weightDen * T)
      ≤ pot * v.weightDen * v.stake / (v.weightDen * T) := by
        apply Nat.div_le_div_right
        apply Nat.mul_le_mul_right
        exact Nat.mul_le_mul_left _ h1
    _ = v.weightDen * (pot * v.stake) / (v.weightDen * T) := by
        congr 1
        ring
    _ = pot * v.stake / T := Nat.mul_div_mul_left _ _ h2

lemma sumMapMulLeft (pot : Nat) (vals : List EpochModel.RewardValidator) :
    (vals.map (fun v => pot * v.stake)).sum = pot * (vals.map (fun v => v.stake)).sum := by
  induction vals with
  | nil => simp
  | cons a rest ih =>
    simp only [List.map_cons, List.sum_cons, ih]
    ring

lemma distributed_le_pot (pot : Nat) (vals : List EpochModel.RewardValidator)
    (h : ∀ v ∈ vals, v.weightNum ≤ v.weightDen ∧ 0 < v.weightDen) :
    (vals.map (fun v =>
        EpochModel.validatorReward pot ((vals.map (fun w => w.stake)).sum) v)).sum ≤ pot := by
  have step1 : (vals.map (fun v =>
      EpochModel.validatorReward pot ((vals.map (fun w => w.stake)).sum) v)).sum ≤
      (vals.map (fun v => pot * v.stake / ((vals.map (fun w => w.stake)).sum))).sum := by
    apply List.sum_le_sum
    intro v hv
    exact validatorReward_le pot _ v (h v hv).1 (h v hv).2
  have step2 : (vals.map (fun v => pot * v.stake / ((vals.map (fun w => w.stake)).sum))).sum ≤
      ((vals.map (fun v => pot * v.stake)).sum) / ((vals.map (fun w => w.stake)).sum) := by
    have hs := sumDivLe (vals.map (fun v => pot * v.stake)) ((vals.map (fun w => w.stake)).sum)
    rw [List.map_map] at hs
    exact hs
  have step3 : ((vals.map (fun v => pot * v.stake)).sum) /
      ((vals.map (fun w => w.stake)).sum) ≤ pot := by
    rw [sumMapMulLeft]
    rcases Nat.eq_zero_or_pos ((vals.map (fun w => w.stake)).sum) with hT | hT
    · rw [hT]
      simp
    · rw [Nat.mul_div_cancel _ hT]
  exact le_trans step1 (le_trans step2 step3)

/-- C7: in the two-validator scenario of `test_validator_reward_weight_by_stake`
(stakes 1000000 and 500000, both fully online, so both get reward weight 1),
the computed rewards satisfy `reward(test1) = 2 × reward(test2)` exactly,
and in general (weights at most 1, protocol reward rate at most 1) the sum
of all distributed amounts — treasury plus validator rewards — equals the
inflation returned by the reward calculator, which is the epoch's minted
amount. -/
theorem EpochModel.reward_weight_by_stake :
    (EpochModel.calculateReward ⟨5, 100, 1, 10, 50⟩
        [⟨"test1", 1000000, 1, 1⟩, ⟨"test2", 500000, 1, 1⟩]
        3000000 (2 * EpochModel.NUM_NS_IN_SECOND) =
      ([("near", 600), ("test1", 3600), ("test2", 1800)], 6000) ∧
     (3600 : Nat) = 2 * 1800 ∧
     EpochModel.rewardWeight 90 100 99 100 1 1 = (1, 1)) ∧
    (∀ (cfg : EpochModel.RewardConfig) (vals : List EpochModel.RewardValidator)
        (ts ns : Nat),
        cfg.protocolRewardNum ≤ cfg.protocolRewardDen →
        0 < cfg.protocolRewardDen →
        (∀ v ∈ vals, v.weightNum ≤ v.weightDen ∧ 0 < v.weightDen) →
        ((EpochModel.calculateReward cfg vals ts ns).1.map (fun r => r.2)).sum =
          (EpochModel.calculateReward cfg vals ts ns).2) := by
  refine ⟨⟨by decide, by decide, by decide⟩, ?_⟩
  intro cfg vals ts ns hpn hpd hw
  unfold EpochModel.calculateReward
  simp only [List.map_cons, List.sum_cons, List.map_map, Function.comp_def]
  have hD : (vals.map (fun v =>
      EpochModel.validatorReward (EpochModel.epochTotalReward cfg ts ns -
          EpochModel.epochTotalReward cfg ts ns * cfg.protocolRewardNum / cfg.protocolRewardDen)
        ((vals.map (fun w => w.stake)).sum) v)).sum ≤
      EpochModel.epochTotalReward cfg ts ns -
        EpochModel.epochTotalReward cfg ts ns * cfg.protocolRewardNum / cfg.protocolRewardDen :=
    distributed_le_pot _ vals hw
  have hBase : EpochModel.epochTotalReward cfg ts ns * cfg.protocolRewardNum /
      cfg.protocolRewardDen ≤ EpochModel.epochTotalReward cfg ts ns := by
    calc EpochModel.epochTotalReward cfg ts ns * cfg.protocolRewardNum / cfg.protocolRewardDen
        ≤ EpochModel.epochTotalReward cfg ts ns * cfg.protocolRewardDen /
            cfg.protocolRewardDen :=
          Nat.div_le_div_right (Nat.mul_le_mul_left _ hpn)
      _ = EpochModel.epochTotalReward cfg ts ns := Nat.mul_div_cancel _ hpd
  omega

/-- Witness for C7: reward conservation on the concrete two-validator
scenario. -/
theorem EpochModel.reward_weight_by_stake_witness :
    ((EpochModel.calculateReward ⟨5, 100, 1, 10, 50⟩
        [⟨"test1", 1000000, 1, 1⟩, ⟨"test2", 500000, 1, 1⟩]
        3000000 (2 * EpochModel.NUM_NS_IN_SECOND)).1.map (fun r => r.2)).sum =
      (EpochModel.calculateReward ⟨5, 100, 1, 10, 50⟩
        [⟨"test1", 1000000, 1, 1⟩, ⟨"test2", 500000, 1, 1⟩]
        3000000 (2 * EpochModel.NUM_NS_IN_SECOND)).2 :=
  EpochModel.reward_weight_by_stake.2 ⟨5, 100, 1, 10, 50⟩
    [⟨"test1", 1000000, 1, 1⟩, ⟨"test2", 500000, 1, 1⟩]
    3000000 (2 * EpochModel.NUM_NS_IN_SECOND) (by decide) (by decide) (by decide)

lemma bNotTrue {x : Bool} (h : ¬x = true) : x = false := by
  cases x
  · rfl
  · exact absurd rfl h

lemma EpochModel.pickBest_none (K : List (EpochModel.ValidatorPerf × EpochModel.KickoutReason))
    (h : EpochModel.pickBest K = none) : K = [] := by
  cases K with
  | nil => rfl
  | cons x rest =>
    unfold EpochModel.pickBest at h
    cases hr : EpochModel.pickBest rest with
    | none => rw [hr] at h; cases h
    | some b =>
      rw [hr] at h
      dsimp only at h
      by_cases hb : EpochModel.betterB b.1 x.1 = true
      · rw [if_pos hb] at h; cases h
      · rw [if_neg hb] at h; cases h

lemma EpochModel.pickBest_mem :
    ∀ (K : List (EpochModel.ValidatorPerf × EpochModel.KickoutReason)) b,
      EpochModel.pickBest K = some b → b ∈ K := by
  intro K
  induction K with
  | nil => intro b h; cases h
  | cons x rest ih =>
    intro b h
    unfold EpochModel.pickBest at h
    cases hr : EpochModel.pickBest rest with
    | none =>
      rw [hr] at h
      injection h with h
      rw [← h]
      exact List.mem_cons_self x rest
    | some b' =>
      rw [hr] at h
      dsimp only at h
      by_cases hb : EpochModel.betterB b'.1 x.1 = true
      · rw [if_pos hb] at h
        injection h with h
        rw [← h]
        exact List.mem_cons_of_mem x (ih b' hr)
      · rw [if_neg hb] at h
        injection h with h
        rw [← h]
        exact List.mem_cons_self x rest

lemma filterLengthLt {α : Type} (p : α → Bool) :
    ∀ (l : List α) (a : α), a ∈ l → p a = false → (l.filter p).length < l.length := by
  intro l
  induction l with
  | nil => intro a ha _; cases ha
  | cons x rest ih =>
    intro a ha hpa
    rcases List.mem_cons.mp ha with h | h
    · rw [h] at hpa
      simp [List.filter_cons, hpa]
      have := List.length_filter_le p rest
      omega
    · cases hpx : p x with
      | false =>
        simp [List.filter_cons, hpx]
        have := List.length_filter_le p rest
        omega
      | true =>
        simp [List.filter_cons, hpx]
        have := ih a h hpa
        omega

lemma charListLtB_irrefl : ∀ l : List Char, EpochModel.charListLtB l l = false := by
  intro l
  induction l with
  | nil => rfl
  | cons a rest ih =>
    unfold EpochModel.charListLtB
    rw [if_neg (Nat.lt_irrefl _), if_neg (Nat.lt_irrefl _)]
    exact ih

lemma charListLtB_asymm : ∀ l1 l2 : List Char,
    EpochModel.charListLtB l1 l2 = true → EpochModel.charListLtB l2 l1 = false := by
  intro l1
  induction l1 with
  | nil =>
    intro l2 h
    cases l2 with
    | nil => cases h
    | cons b bs => rfl
  | cons a as ih =>
    intro l2 h
    cases l2 with
    | nil => cases h
    | cons b bs =>
      unfold EpochModel.charListLtB at h ⊢
      by_cases hab : a.toNat < b.toNat
      · rw [if_neg (Nat.lt_asymm hab), if_pos hab]
      · rw [if_neg hab] at h
        by_cases hba : b.toNat < a.toNat
        · rw [if_pos hba] at h
          cases h
        · rw [if_neg hba] at h
          rw [if_neg hba, if_neg hab]
          exact ih bs h

lemma charListLtB_neg_trans : ∀ l1 l2 l3 : List Char,
    EpochModel.charListLtB l1 l2 = false → EpochModel.charListLtB l2 l3 = false →
    EpochModel.charListLtB l1 l3 = false := by
  intro l1
  induction l1 with
  | nil =>
    intro l2 l3 h1 h2
    cases l2 with
    | nil =>
      cases l3 with
      | nil => rfl
      | cons c cs => cases h2
    | cons b bs => cases h1
  | cons a as ih =>
    intro l2 l3 h1 h2
    cases l2 with
    | nil =>
      cases l3 with
      | nil => rfl
      | cons c cs => cases h2
    | cons b bs =>
      cases l3 with
      | nil => rfl
      | cons c cs =>
        unfold EpochModel.charListLtB at h1 h2 ⊢
        by_cases hab : a.toNat < b.toNat
        · rw [if_pos hab] at h1; cases h1
        rw [if_neg hab] at h1
        by_cases hbc : b.toNat < c.toNat
        · rw [if_pos hbc] at h2; cases h2
        rw [if_neg hbc] at h2
        rw [if_neg (by omega)]
        by_cases hca : c.toNat < a.toNat
        · rw [if_pos hca]
        rw [if_neg hca]
        by_cases hba : b.toNat < a.toNat
        · omega
        rw [if_neg hba] at h1
        by_cases hcb : c.toNat < b.toNat
        · omega
        rw [if_neg hcb] at h2
        exact ih bs cs h1 h2

lemma EpochModel.ratioPair_pos (p e : Nat) : 0 < (EpochModel.ratioPair p e).2 := by
  unfold EpochModel.ratioPair
  by_cases h : e = 0
  · rw [if_pos h]
    exact Nat.one_pos
  · rw [if_neg h]
    exact Nat.pos_of_ne_zero h

lemma EpochModel.ratioGtB_asymm {x y : Nat × Nat}
    (h : EpochModel.ratioGtB x y = true) : EpochModel.ratioGtB y x = false := by
  simp only [EpochModel.ratioGtB, decide_eq_true_eq] at h
  simp only [EpochModel.ratioGtB, decide_eq_false_iff_not]
  exact Nat.lt_asymm h

lemma EpochModel.ratioGtB_le_trans {x y z : Nat × Nat} (hy : 0 < y.2)
    (h1 : EpochModel.ratioGtB x y = false) (h2 : EpochModel.ratioGtB y z = false) :
    EpochModel.ratioGtB x z = false := by
  simp only [EpochModel.ratioGtB, decide_eq_false_iff_not, Nat.not_lt] at h1 h2 ⊢
  have m3 : x.1 * z.2 * y.2 ≤ z.1 * x.2 * y.2 := by
    calc x.1 * z.2 * y.2 = x.1 * y.2 * z.2 := by ring
    _ ≤ y.1 * x.2 * z.2 := Nat.mul_le_mul_right _ h1
    _ = y.1 * z.2 * x.2 := by ring
    _ ≤ z.1 * y.2 * x.2 := Nat.mul_le_mul_right _ h2
    _ = z.1 * x.2 * y.2 := by ring
  exact Nat.le_of_mul_le_mul_right m3 hy

lemma bFalseNotTrue {x : Bool} (h : x = false) : ¬x = true := by
  rw [h]
  simp

lemma EpochModel.endorseRatio_pos (v : EpochModel.ValidatorPerf) :
    0 < (EpochModel.endorseRatio v).2 :=
  EpochModel.ratioPair_pos _ _

lemma EpochModel.prodRatio_pos (v : EpochModel.ValidatorPerf) :
    0 < (EpochModel.prodRatio v).2 :=
  EpochModel.ratioPair_pos _ _

lemma EpochModel.betterB_irrefl (a : EpochModel.ValidatorPerf) :
    EpochModel.betterB a a = false := by
  unfold EpochModel.betterB
  simp [EpochModel.ratioGtB, charListLtB_irrefl]

lemma EpochModel.betterB_asymm (a b : EpochModel.ValidatorPerf)
    (h : EpochModel.betterB a b = true) : EpochModel.betterB b a = false := by
  unfold EpochModel.betterB at h ⊢
  by_cases hE1 : EpochModel.ratioGtB (EpochModel.endorseRatio a) (EpochModel.endorseRatio b) = true
  · rw [if_neg (bFalseNotTrue (EpochModel.ratioGtB_asymm hE1)), if_pos hE1]
  rw [if_neg hE1] at h
  by_cases hE2 : EpochModel.ratioGtB (EpochModel.endorseRatio b) (EpochModel.endorseRatio a) = true
  · rw [if_pos hE2] at h
    cases h
  rw [if_neg hE2] at h
  rw [if_neg hE2, if_neg hE1]
  by_cases hP1 : EpochModel.ratioGtB (EpochModel.prodRatio a) (EpochModel.prodRatio b) = true
  · rw [if_neg (bFalseNotTrue (EpochModel.ratioGtB_asymm hP1)), if_pos hP1]
  rw [if_neg hP1] at h
  by_cases hP2 : EpochModel.ratioGtB (EpochModel.prodRatio b) (EpochModel.prodRatio a) = true
  · rw [if_pos hP2] at h
    cases h
  rw [if_neg hP2] at h
  rw [if_neg hP2, if_neg hP1]
  by_cases hS1 : b.stake < a.stake
  · rw [if_neg (Nat.lt_asymm hS1), if_pos hS1]
  rw [if_neg hS1] at h
  by_cases hS2 : a.stake < b.stake
  · rw [if_pos hS2] at h
    cases h
  rw [if_neg hS2] at h
  rw [if_neg hS2, if_neg hS1]
  exact charListLtB_asymm _ _ h

lemma EpochModel.betterB_neg_trans (a b c : EpochModel.ValidatorPerf)
    (h1 : EpochModel.betterB a b = false) (h2 : EpochModel.betterB b c = false) :
    EpochModel.betterB a c = false := by
  unfold EpochModel.betterB at h1 h2 ⊢
  by_cases hab1 : EpochModel.ratioGtB (EpochModel.endorseRatio a) (EpochModel.endorseRatio b) = true
  · rw [if_pos hab1] at h1
    cases h1
  rw [if_neg hab1] at h1
  by_cases hbc1 : EpochModel.ratioGtB (EpochModel.endorseRatio b) (EpochModel.endorseRatio c) = true
  · rw [if_pos hbc1] at h2
    cases h2
  rw [if_neg hbc1] at h2
  have hac1 : EpochModel.ratioGtB (EpochModel.endorseRatio a) (EpochModel.endorseRatio c) = false :=
    EpochModel.ratioGtB_le_trans (EpochModel.endorseRatio_pos b)
      (bNotTrue hab1) (bNotTrue hbc1)
  rw [if_neg (bFalseNotTrue hac1)]
  by_cases hca1 : EpochModel.ratioGtB (EpochModel.endorseRatio c) (EpochModel.endorseRatio a) = true
  · rw [if_pos hca1]
  rw [if_neg hca1]
  have hba1 : EpochModel.ratioGtB (EpochModel.endorseRatio b) (EpochModel.endorseRatio a) = false :=
    EpochModel.ratioGtB_le_trans (EpochModel.endorseRatio_pos c)
      (bNotTrue hbc1) (bNotTrue hca1)
  have hcb1 : EpochModel.ratioGtB (EpochModel.endorseRatio c) (EpochModel.endorseRatio b) = false :=
    EpochModel.ratioGtB_le_trans (EpochModel.endorseRatio_pos a)
      (bNotTrue hca1) (bNotTrue hab1)
  rw [if_neg (bFalseNotTrue hba1)] at h1
  rw [if_neg (bFalseNotTrue hcb1)] at h2
  by_cases hab2 : EpochModel.ratioGtB (EpochModel.prodRatio a) (EpochModel.prodRatio b) = true
  · rw [if_pos hab2] at h1
    cases h1
  rw [if_neg hab2] at h1
  by_cases hbc2 : EpochModel.ratioGtB (EpochModel.prodRatio b) (EpochModel.prodRatio c) = true
  · rw [if_pos hbc2] at h2
    cases h2
  rw [if_neg hbc2] at h2
  have hac2 : EpochModel.ratioGtB (EpochModel.prodRatio a) (EpochModel.prodRatio c) = false :=
    EpochModel.ratioGtB_le_trans (EpochModel.prodRatio_pos b)
      (bNotTrue hab2) (bNotTrue hbc2)
  rw [if_neg (bFalseNotTrue hac2)]
  by_cases hca2 : EpochModel.ratioGtB (EpochModel.prodRatio c) (EpochModel.prodRatio a) = true
  · rw [if_pos hca2]
  rw [if_neg hca2]
  have hba2 : EpochModel.ratioGtB (EpochModel.prodRatio b) (EpochModel.prodRatio a) = false :=
    EpochModel.ratioGtB_le_trans (EpochModel.prodRatio_pos c)
      (bNotTrue hbc2) (bNotTrue hca2)
  have hcb2 : EpochModel.ratioGtB (EpochModel.prodRatio c) (EpochModel.prodRatio b) = false :=
    EpochModel.ratioGtB_le_trans (EpochModel.prodRatio_pos a)
      (bNotTrue hca2) (bNotTrue hab2)
  rw [if_neg (bFalseNotTrue hba2)] at h1
  rw [if_neg (bFalseNotTrue hcb2)] at h2
  by_cases hab3 : b.stake < a.stake
  · rw [if_pos hab3] at h1
    cases h1
  rw [if_neg hab3] at h1
  by_cases hbc3 : c.stake < b.stake
  · rw [if_pos hbc3] at h2
    cases h2
  rw [if_neg hbc3] at h2
  rw [if_neg (show ¬c.stake < a.stake by omega)]
  by_cases hca3 : a.stake < c.stake
  · rw [if_pos hca3]
  rw [if_neg hca3]
  rw [if_neg (show ¬a.stake < b.stake by omega)] at h1
  rw [if_neg (show ¬b.stake < c.stake by omega)] at h2
  exact charListLtB_neg_trans _ _ _ h1 h2

lemma EpochModel.pickBest_maximal :
    ∀ (K : List (EpochModel.ValidatorPerf × EpochModel.KickoutReason)) b,
      EpochModel.pickBest K = some b →
      ∀ c ∈ K, EpochModel.betterB c.1 b.1 = false := by
  intro K
  induction K with
  | nil => intro b h; cases h
  | cons x rest ih =>
    intro b h c hc
    unfold EpochModel.pickBest at h
    cases hr : EpochModel.pickBest rest with
    | none =>
      rw [hr] at h
      injection h with h
      have hrest := EpochModel.pickBest_none rest hr
      subst hrest
      rcases List.mem_cons.mp hc with he | he
      · rw [he, ← h]
        exact EpochModel.betterB_irrefl _
      · cases he
    | some b' =>
      rw [hr] at h
      dsimp only at h
      by_cases hcmp : EpochModel.betterB b'.1 x.1 = true
      · rw [if_pos hcmp] at h
        injection h with h
        rcases List.mem_cons.mp hc with he | he
        · rw [he, ← h]
          exact EpochModel.betterB_asymm _ _ hcmp
        · rw [← h]
          exact ih b' hr c he
      · rw [if_neg hcmp] at h
        injection h with h
        rcases List.mem_cons.mp hc with he | he
        · rw [he, ← h]
          exact EpochModel.betterB_irrefl _
        · rw [← h]
          exact EpochModel.betterB_neg_trans c.1 b'.1 x.1 (ih b' hr c he) (bNotTrue hcmp)

lemma filterFilterEq {α : Type} (p q : α → Bool) :
    ∀ l : List α, (∀ x ∈ l, p x = true → q x = true) →
      (l.filter q).filter p = l.filter p := by
  intro l
  induction l with
  | nil => intro _; rfl
  | cons x rest ih =>
    intro h
    have ih' := ih (fun y hy hpy => h y (List.mem_cons_of_mem _ hy) hpy)
    cases hq : q x with
    | true =>
      cases hp : p x with
      | true => simp [List.filter_cons, hq, hp, ih']
      | false => simp [List.filter_cons, hq, hp, ih']
    | false =>
      have hp : p x = false := by
        cases hpx : p x with
        | false => rfl
        | true =>
          have := h x (List.mem_cons_self x rest) hpx
          rw [this] at hq
          cases hq
      simp [List.filter_cons, hq, hp, ih']

lemma EpochModel.exemptIter_bound (pA : List String) (perc total pStake : Nat) :
    ∀ (fuel : Nat) (K : List (EpochModel.ValidatorPerf × EpochModel.KickoutReason)),
      K.length ≤ fuel →
      (EpochModel.stakeOf (K.filter (fun c => pA.contains c.1.account)) + pStake) * 100 ≤
        perc * total →
      (EpochModel.stakeOf (EpochModel.exemptIter pA perc total pStake fuel K) + pStake) * 100 ≤
        perc * total := by
  intro fuel
  induction fuel with
  | zero =>
    intro K hlen hyp
    have hK : K = [] := List.length_eq_zero.mp (Nat.le_zero.mp hlen)
    subst hK
    simpa using hyp
  | succ fuel ih =>
    intro K hlen hyp
    unfold EpochModel.exemptIter
    by_cases hcond : (EpochModel.stakeOf K + pStake) * 100 ≤ perc * total
    · rw [if_pos hcond]
      exact hcond
    rw [if_neg hcond]
    cases hpick : EpochModel.pickBest (K.filter (fun c => !(pA.contains c.1.account))) with
    | none =>
      exfalso
      have hfe := EpochModel.pickBest_none _ hpick
      have hall : ∀ c ∈ K, pA.contains c.1.account = true := by
        intro c hc
        by_cases hcc : pA.contains c.1.account = true
        · exact hcc
        · exfalso
          have hmem : c ∈ K.filter (fun c => !(pA.contains c.1.account)) :=
            List.mem_filter.mpr ⟨hc, by rw [bNotTrue hcc]; rfl⟩
          rw [hfe] at hmem
          cases hmem
      have hKeq : K.filter (fun c => pA.contains c.1.account) = K :=
        List.filter_eq_self.mpr hall
      rw [hKeq] at hyp
      exact hcond hyp
    | some b =>
      dsimp only
      have hbmem := EpochModel.pickBest_mem _ _ hpick
      obtain ⟨hbK, hbP⟩ := List.mem_filter.mp hbmem
      have hbPf : pA.contains b.1.account = false := by
        cases hx : pA.contains b.1.account with
        | false => rfl
        | true => rw [hx] at hbP; cases hbP
      apply ih
      · have hlt := filterLengthLt (fun c => !(c.1.account == b.1.account)) K b hbK (by simp)
        omega
      · rw [filterFilterEq (fun c => pA.contains c.1.account)
            (fun c => !(c.1.account == b.1.account)) K ?hpq]
        · exact hyp
        case hpq =>
          intro x hx hpx
          dsimp only at hpx ⊢
          by_cases hxe : (x.1.account == b.1.account) = true
          · exfalso
            have heq : x.1.account = b.1.account := eq_of_beq hxe
            rw [heq] at hpx
            rw [hpx] at hbPf
            cases hbPf
          · rw [bNotTrue hxe]
            rfl

lemma EpochModel.exemptIter_keeps (pA : List String) (perc total pStake : Nat) :
    ∀ (fuel : Nat) (K : List (EpochModel.ValidatorPerf × EpochModel.KickoutReason))
      (c : EpochModel.ValidatorPerf × EpochModel.KickoutReason),
      c ∈ K → pA.contains c.1.account = true →
      c ∈ EpochModel.exemptIter pA perc total pStake fuel K := by
  intro fuel
  induction fuel with
  | zero => intro K c hc _; exact hc
  | succ fuel ih =>
    intro K c hc hcP
    unfold EpochModel.exemptIter
    by_cases hcond : (EpochModel.stakeOf K + pStake) * 100 ≤ perc * total
    · rw [if_pos hcond]
      exact hc
    rw [if_neg hcond]
    cases hpick : EpochModel.pickBest (K.filter (fun c => !(pA.contains c.1.account))) with
    | none => exact hc
    | some b =>
      dsimp only
      have hbmem := EpochModel.pickBest_mem _ _ hpick
      obtain ⟨hbK, hbP⟩ := List.mem_filter.mp hbmem
      have hbPf : pA.contains b.1.account = false := by
        cases hx : pA.contains b.1.account with
        | false => rfl
        | true => rw [hx] at hbP; cases hbP
      apply ih
      · apply List.mem_filter.mpr
        refine ⟨hc, ?_⟩
        dsimp only
        by_cases hxe : (c.1.account == b.1.account) = true
        · exfalso
          have heq : c.1.account = b.1.account := eq_of_beq hxe
          rw [heq] at hcP
          rw [hcP] at hbPf
          cases hbPf
        · rw [bNotTrue hxe]
          rfl
      · exact hcP

/-- C1: the max-kickout-stake safety valve.  Whenever the prior epoch's
kickout stake (together with any re-flagged prior-kickout candidates) is
within the `perc` bound, the final kicked stake plus the prior epoch's
kickout stake never exceeds `perc` percent of the epoch's total stake;
candidates from the prior epoch's kickout set are never exempted; each
exemption step removes a candidate maximal in the deterministic score order
(chunk-endorsement ratio desc, block+chunk production ratio desc, stake
desc, account id asc); and on the `test_max_kickout_stake_ratio` scenario
with `validator_max_kickout_stake_perc = 40` the exemptions leave exactly
`test0` kicked. -/
theorem EpochModel.max_kickout_stake_invariant :
    (∀ (thrB thrC thrE perc : Nat) (vs : List EpochModel.ValidatorPerf)
        (prevKick : List String),
        (EpochModel.stakeOf ((EpochModel.kickoutCandidates thrB thrC thrE vs).filter
            (fun c => prevKick.contains c.1.account)) +
          EpochModel.prevKickStake vs prevKick) * 100 ≤
            perc * EpochModel.totalStake vs →
        (EpochModel.kickedStake thrB thrC thrE perc vs prevKick +
          EpochModel.prevKickStake vs prevKick) * 100 ≤
            perc * EpochModel.totalStake vs) ∧
    (∀ (pA : List String) (perc total pStake fuel : Nat)
        (K : List (EpochModel.ValidatorPerf × EpochModel.KickoutReason))
        (c : EpochModel.ValidatorPerf × EpochModel.KickoutReason),
        c ∈ K → pA.contains c.1.account = true →
        c ∈ EpochModel.exemptIter pA perc total pStake fuel K) ∧
    (∀ (K : List (EpochModel.ValidatorPerf × EpochModel.KickoutReason)) b,
        EpochModel.pickBest K = some b →
        ∀ c ∈ K, EpochModel.betterB c.1 b.1 = false) ∧
    EpochModel.computeKickout 90 80 0 40 EpochModel.maxKickoutPerf ["test3"] =
      [("test0", EpochModel.KickoutReason.NotEnoughBlocks 50 100)] := by
  refine ⟨?_, ?_, EpochModel.pickBest_maximal, by decide⟩
  · intro thrB thrC thrE perc vs prevKick h
    exact EpochModel.exemptIter_bound prevKick perc (EpochModel.totalStake vs)
      (EpochModel.prevKickStake vs prevKick) _ _ (le_refl _) h
  · intro pA perc total pStake fuel K c hc hcP
    exact EpochModel.exemptIter_keeps pA perc total pStake fuel K c hc hcP

/-- Witness for C1: the bound holds on the concrete
`test_max_kickout_stake_ratio` data (five validators of stake 1000, prior
kickout `test3`, 40 percent cap). -/
theorem EpochModel.max_kickout_stake_invariant_witness :
    (EpochModel.kickedStake 90 80 0 40 EpochModel.maxKickoutPerf ["test3"] +
      EpochModel.prevKickStake EpochModel.maxKickoutPerf ["test3"]) * 100 ≤
      40 * EpochModel.totalStake EpochModel.maxKickoutPerf :=
  EpochModel.max_kickout_stake_invariant.1 90 80 0 40 EpochModel.maxKickoutPerf
    ["test3"] (by decide)
